import Mathlib

/-!
Shallow embedding of the N1MM log listener core: the versioned QSO store
(`qso_database.py` over the `qsos` / `qsos_raw` / `deleted_qsos` schema) and
the reconciliation state machine (`n1mm_handler.handle_message` in
`n1mm_listener.py`).

The schema file `qso_database.sql` (the view definitions and triggers) is not
part of the sources; wherever its behaviour decides a definition, the
definition is modelled from the spec (and the repository's tests) and says so
in its doc comment.  The Python code itself is embedded faithfully.

The `modified` column of `qsos_raw` is a commit timestamp that strictly
increases with append order, so every `MAX(modified)` selection in the source
is embedded as "last matching row in append order".
-/

namespace N1mm

/-- Payload of a contact record.  The core only interprets the `timestamp` and
`call` attributes; every other column of the row is collapsed into `rest`.
Each field is `Option` because the corresponding SQL column is nullable. -/
structure Payload where
  timestamp : Option String
  call : Option String
  rest : Option String
deriving DecidableEq, Repr

/-- One row of the append-only history table `qsos_raw`.  `payload = none`
encodes a tombstone row (all payload columns NULL), which is what the delete
trigger appends. -/
structure RawRow where
  qsoid : Nat
  payload : Option Payload
deriving DecidableEq, Repr

/-- The versioned store: the next identity key to be allocated and the
`qsos_raw` history in append order. -/
structure Store where
  nextKey : Nat
  raw : List RawRow
deriving DecidableEq, Repr

/-- The store with no records. -/
def emptyStore : Store := ⟨0, []⟩

/-- Most recent version of key `k`: the last row of `qsos_raw` with that
`qsoid` (append order realises `MAX(modified)`). -/
def lastMatching (rows : List RawRow) (k : Nat) : Option RawRow :=
  (rows.filter (fun r => r.qsoid == k)).getLast?

/-- Modelled from the spec: the missing `qso_database.sql` defines the
`deleted_qsos` view; per spec section 3 a key is deleted when its most recent
version is a tombstone. -/
def isDeleted (s : Store) (k : Nat) : Bool :=
  match lastMatching s.raw k with
  | some r => r.payload.isNone
  | none => false

/-- Modelled from the spec: a key is present in the `qsos` view when its most
recent version is not a tombstone (spec section 3, Current View). -/
def isPresent (s : Store) (k : Nat) : Bool :=
  match lastMatching s.raw k with
  | some r => r.payload.isSome
  | none => false

/-- Modelled from the spec: the `qsos` view (Current View) - for each
allocated key whose latest version is not a tombstone, that latest payload. -/
def qsosRows (s : Store) : List (Nat × Payload) :=
  (List.range s.nextKey).filterMap (fun k =>
    match lastMatching s.raw k with
    | some r => r.payload.map (fun p => (k, p))
    | none => none)

/-- SQL `=` comparison on nullable columns: NULL compares false to
everything, including NULL. -/
def sqlEq : Option String → Option String → Bool
  | some a, some b => a == b
  | _, _ => false

/-- Current-view payload of key `k`, when present. -/
def currentPayload (s : Store) (k : Nat) : Option Payload :=
  (lastMatching s.raw k).bind (fun r => r.payload)

/-- Outcome of one operation, as classified by the spec (section 7); the
Python reports these only through log lines.  `Ignored` is the handler
falling through its `if`/`elif` chain on an unrecognised message root. -/
inductive Outcome where
  | Applied (key : Nat)
  | NotFound
  | GaveUp
  | Ignored
deriving DecidableEq, Repr

/-- `qso_database.get_qso_id`: `SELECT qsoid FROM qsos WHERE timestamp = %s
AND call = %s`, `fetchone`; returns the qsoid of the first matching
current-view row, or `none` (NULL arguments match nothing, per `sqlEq`). -/
def get_qso_id (s : Store) (ts c : Option String) : Option Nat :=
  ((qsosRows s).find? (fun kp => sqlEq kp.2.timestamp ts && sqlEq kp.2.call c)).map
    (fun kp => kp.1)

/-- `qso_database.insert_qso`: `INSERT INTO qsos ...`.  Modelled from the
spec for the missing insert trigger: allocates a fresh identity key and
appends the first (non-tombstone) version. -/
def insert_qso (s : Store) (p : Payload) : Store :=
  { nextKey := s.nextKey + 1, raw := s.raw ++ [⟨s.nextKey, some p⟩] }

/-- `qso_database.delete_qso`: `DELETE FROM qsos WHERE qsoid = %s`.  Modelled
from the spec for the missing delete trigger (and the repository's tests): a
present key gets one tombstone row appended; a NULL, unknown or already
tombstoned qsoid matches no view row, so nothing is appended - the spec
classifies that as `NotFound`. -/
def delete_qso (s : Store) (qsoid : Option Nat) : Store × Outcome :=
  match qsoid with
  | none => (s, Outcome.NotFound)
  | some k =>
    if isPresent s k then ({ s with raw := s.raw ++ [⟨k, none⟩] }, Outcome.Applied k)
    else (s, Outcome.NotFound)

/-- `qso_database.update_qso`: `UPDATE qsos SET ... WHERE qsoid = %s`.
Modelled from the spec for the missing update path (spec section 4.1
`replace`): appends a new non-tombstone version with the payload for a known
key, regardless of whether the key is currently tombstoned; `NotFound` for an
unknown key. -/
def update_qso (s : Store) (k : Nat) (p : Payload) : Store × Outcome :=
  if k < s.nextKey then
    ({ s with raw := s.raw ++ [⟨k, some p⟩] }, Outcome.Applied k)
  else (s, Outcome.NotFound)

/-- Rows eligible to revive a deleted QSO in `qso_database.undo_delete`: the
source SQL selects rows `WHERE call IS NOT NULL AND timestamp IS NOT NULL`
with the given qsoid. -/
def revivable (k : Nat) (r : RawRow) : Bool :=
  r.qsoid == k &&
    (match r.payload with
     | some p => p.call.isSome && p.timestamp.isSome
     | none => false)

/-- The row `undo_delete` copies: the most recent (`MAX(modified)`, i.e. last
appended) revivable row for `k`. -/
def lastRevivable (rows : List RawRow) (k : Nat) : Option RawRow :=
  (rows.filter (revivable k)).getLast?

/-- `qso_database.undo_delete`: if `k` is in `deleted_qsos`, re-insert a copy
of the most recent revivable version into `qsos_raw`; otherwise do nothing.
When the inner `SELECT` is empty the `INSERT` inserts zero rows and the
function completes silently - there is no error path in the source, which is
why this embedding returns only a `Store`. -/
def undo_delete (s : Store) (k : Nat) : Store :=
  if isDeleted s k then
    match lastRevivable s.raw k with
    | some r => { s with raw := s.raw ++ [⟨k, r.payload⟩] }
    | none => s
  else s

/-- A decoded N1MM message, by its XML root element; `other` is any
well-formed message with a different root. -/
inductive Event where
  | contactinfo (contact : Payload)
  | contactdelete (contact : Payload)
  | contactreplace (contact : Payload)
  | other
deriving DecidableEq, Repr

/-- State of `n1mm_handler`: `last_deleted_contact` holds the fields of the
most recent `contactdelete` together with the qsoid resolved for it (the
Python stores the contact dict with a `qsoid` entry added). -/
structure HandlerState where
  last_deleted_contact : Option (Payload × Option Nat)
  qso_db : Store
deriving DecidableEq, Repr

/-- The handler's initial state (`n1mm_handler.__init__`). -/
def initialState (s : Store) : HandlerState := ⟨none, s⟩

/-- `n1mm_handler.handle_message`, one decoded event at a time.  The result
`none` models an uncaught Python exception: on a `contactreplace` with
`last_deleted_contact` still `None`, line 93 evaluates
`self.last_deleted_contact['qsoid']` and raises `TypeError`.  Outcomes follow
the spec's classification of each exit point. -/
def handle_message (st : HandlerState) (e : Event) : Option (HandlerState × Outcome) :=
  match e with
  | Event.contactinfo p =>
    some ({ st with qso_db := insert_qso st.qso_db p },
          Outcome.Applied st.qso_db.nextKey)
  | Event.contactdelete p =>
    let qso_id := get_qso_id st.qso_db p.timestamp p.call
    let db := (delete_qso st.qso_db qso_id).1
    some ({ last_deleted_contact := some (p, qso_id), qso_db := db },
          match qso_id with
          | some k => Outcome.Applied k
          | none => Outcome.NotFound)
  | Event.contactreplace p =>
    match st.last_deleted_contact with
    | none => none
    | some (ldc, ldKey) =>
      let dbq : Store × Option Nat :=
        match ldKey with
        | none => (st.qso_db, get_qso_id st.qso_db p.timestamp p.call)
        | some q => (undo_delete st.qso_db q, some q)
      match dbq.2 with
      | some q =>
        some ({ st with qso_db := (update_qso dbq.1 q p).1 }, Outcome.Applied q)
      | none =>
        let candidates := [get_qso_id dbq.1 p.timestamp ldc.call,
                           get_qso_id dbq.1 ldc.timestamp p.call]
        match candidates.filterMap id with
        | q :: _ =>
          some ({ st with qso_db := (update_qso dbq.1 q p).1 }, Outcome.Applied q)
        | [] => some (st, Outcome.GaveUp)
  | Event.other => some (st, Outcome.Ignored)


/-! Helper lemmas about the store. -/

/-- Appending one row changes `lastMatching` only for that row's key. -/
theorem lastMatching_append (rows : List RawRow) (r : RawRow) (k : Nat) :
    lastMatching (rows ++ [r]) k =
      if r.qsoid == k then some r else lastMatching rows k := by
  unfold lastMatching
  rw [List.filter_append]
  cases h : r.qsoid == k <;> simp [List.filter, h]

/-- A row returned by `lastRevivable` satisfies the revivability predicate. -/
theorem revivable_of_lastRevivable {rows : List RawRow} {k : Nat} {r : RawRow}
    (h : lastRevivable rows k = some r) : revivable k r = true := by
  unfold lastRevivable at h
  have hmem := List.mem_of_getLast?_eq_some h
  exact (List.mem_filter.mp hmem).2

/-- `undo_delete` does nothing when the key is not currently deleted. -/
theorem undo_delete_not_deleted {s : Store} {k : Nat}
    (h : isDeleted s k = false) : undo_delete s k = s := by
  simp [undo_delete, h]

/-- `undo_delete` does nothing when no revivable version exists. -/
theorem undo_delete_no_revivable {s : Store} {k : Nat}
    (h : lastRevivable s.raw k = none) : undo_delete s k = s := by
  unfold undo_delete
  cases hd : isDeleted s k <;> simp [h]

/-- `undo_delete` is idempotent on every store and key. -/
theorem undo_delete_undo_delete (s : Store) (k : Nat) :
    undo_delete (undo_delete s k) k = undo_delete s k := by
  cases hd : isDeleted s k
  · rw [undo_delete_not_deleted hd]
    exact undo_delete_not_deleted hd
  · cases hr : lastRevivable s.raw k
    · rw [undo_delete_no_revivable hr]
      exact undo_delete_no_revivable hr
    · rename_i r
      have hrev := revivable_of_lastRevivable hr
      have hu : undo_delete s k = { s with raw := s.raw ++ [⟨k, r.payload⟩] } := by
        simp [undo_delete, hd, hr]
      rw [hu]
      apply undo_delete_not_deleted
      cases hp : r.payload with
      | none => rw [revivable, hp] at hrev; simp at hrev
      | some p => simp [isDeleted, lastMatching_append, hp]

/-! Concrete fixtures used by witnesses and counterexamples. -/

/-- Fixture payload: record (T1, AB1CD). -/
def pA : Payload := ⟨some "T1", some "AB1CD", none⟩

/-- Fixture payload: record (T2, EF2GH). -/
def pB : Payload := ⟨some "T2", some "EF2GH", none⟩

/-- Fixture payload: replacement (T1, ZZ9ZZ). -/
def pZ : Payload := ⟨some "T1", some "ZZ9ZZ", none⟩

/-- Fixture store holding the two records of the spec's concrete scenario. -/
def s2w : Store := insert_qso (insert_qso emptyStore pA) pB

/-- Fixture store whose only history row for key 0 is a tombstone. -/
def s5w : Store := ⟨1, [⟨0, none⟩]⟩

/-- C4: `undoDelete` is idempotent: it is a no-op on a key whose current-view
entry is not a tombstone (never-deleted keys included), and soft-delete
followed by two undo-deletes ends in the same store as soft-delete followed
by one. -/
theorem undo_delete_idempotent (s : Store) (k : Nat) :
    (isDeleted s k = false → undo_delete s k = s) ∧
    undo_delete (undo_delete (delete_qso s (some k)).1 k) k
      = undo_delete (delete_qso s (some k)).1 k :=
  ⟨fun h => undo_delete_not_deleted h, undo_delete_undo_delete _ k⟩

/-- Witness for C4 at a concrete store: key 1 is present (not deleted), and
the delete/undo/undo chain on key 0 matches delete/undo. -/
theorem undo_delete_idempotent_witness :
    undo_delete s2w 1 = s2w ∧
    undo_delete (undo_delete (delete_qso s2w (some 0)).1 0) 0
      = undo_delete (delete_qso s2w (some 0)).1 0 :=
  ⟨(undo_delete_idempotent s2w 1).1 (by decide), (undo_delete_idempotent s2w 0).2⟩

/-- C5 (amended): when the current view of `k` is a tombstone but the history
holds no revivable version, `undo_delete` completes silently and leaves the
store unchanged; no `CorruptHistory` outcome exists in the code. -/
theorem undo_delete_silent_on_missing_history (s : Store) (k : Nat)
    (h1 : isDeleted s k = true) (h2 : lastRevivable s.raw k = none) :
    undo_delete s k = s := by
  simp [undo_delete, h1, h2]

/-- Witness for the amended C5 at the all-tombstone fixture store. -/
theorem undo_delete_silent_on_missing_history_witness :
    undo_delete s5w 0 = s5w :=
  undo_delete_silent_on_missing_history s5w 0 (by decide) (by decide)

/-- Counterexample to C5 as stated: key 0 of `s5w` has a tombstone current
view and no non-tombstone version at all in its history, yet `undo_delete`
completes normally with the store unchanged - the source has no error path
(its result type is just the store), so no `CorruptHistory` is signalled. -/
theorem undo_delete_no_corrupt_history_signal :
    isDeleted s5w 0 = true ∧
    s5w.raw.all (fun r => r.payload.isNone) = true ∧
    undo_delete s5w 0 = s5w := by decide

/-- C6: `replace` on a known key appends exactly one non-tombstone version
carrying the payload, whether or not the key is currently tombstoned, and
afterwards the key is present in the current view with the new payload. -/
theorem update_qso_revives (s : Store) (k : Nat) (p : Payload)
    (h : k < s.nextKey) :
    update_qso s k p = ({ s with raw := s.raw ++ [⟨k, some p⟩] }, Outcome.Applied k) ∧
    isPresent (update_qso s k p).1 k = true ∧
    currentPayload (update_qso s k p).1 k = some p := by
  refine ⟨by simp [update_qso, h], ?_, ?_⟩ <;>
    simp [update_qso, h, isPresent, currentPayload, lastMatching_append]

/-- Witness for C6: key 0 of the fixture store is soft-deleted (its current
view is a tombstone), and replacing it appends the new payload and revives
it. -/
theorem update_qso_revives_witness :
    isDeleted (delete_qso s2w (some 0)).1 0 = true ∧
    (update_qso (delete_qso s2w (some 0)).1 0 pZ =
        ({ (delete_qso s2w (some 0)).1 with
            raw := (delete_qso s2w (some 0)).1.raw ++ [⟨0, some pZ⟩] },
         Outcome.Applied 0) ∧
      isPresent (update_qso (delete_qso s2w (some 0)).1 0 pZ).1 0 = true ∧
      currentPayload (update_qso (delete_qso s2w (some 0)).1 0 pZ).1 0 = some pZ) :=
  ⟨by decide, update_qso_revives (delete_qso s2w (some 0)).1 0 pZ (by decide)⟩

/-- C9: `softDelete` on an unknown or already tombstoned key appends nothing
and reports `NotFound`; on a present key it appends exactly one tombstone
row, after which the key is deleted. -/
theorem delete_qso_spec (s : Store) (k : Nat) :
    (isPresent s k = false → delete_qso s (some k) = (s, Outcome.NotFound)) ∧
    (isPresent s k = true →
      delete_qso s (some k) =
        ({ s with raw := s.raw ++ [⟨k, none⟩] }, Outcome.Applied k) ∧
      isDeleted (delete_qso s (some k)).1 k = true ∧
      (delete_qso s (some k)).1.raw.length = s.raw.length + 1) := by
  constructor
  · intro h
    simp [delete_qso, h]
  · intro h
    refine ⟨by simp [delete_qso, h], ?_, ?_⟩ <;>
      simp [delete_qso, h, isDeleted, lastMatching_append]

/-- Witness for C9: key 5 is unknown to the fixture store, key 0 is
present. -/
theorem delete_qso_spec_witness :
    delete_qso s2w (some 5) = (s2w, Outcome.NotFound) ∧
    (delete_qso s2w (some 0) =
        ({ s2w with raw := s2w.raw ++ [⟨0, none⟩] }, Outcome.Applied 0) ∧
      isDeleted (delete_qso s2w (some 0)).1 0 = true ∧
      (delete_qso s2w (some 0)).1.raw.length = s2w.raw.length + 1) :=
  ⟨(delete_qso_spec s2w 5).1 (by decide), (delete_qso_spec s2w 0).2 (by decide)⟩

/-! Handler-level claims. -/

/-- C10: a well-formed message whose root is none of `contactinfo`,
`contactdelete`, `contactreplace` falls through the handler's `if`/`elif`
chain: no store operation, state untouched, no error. -/
theorem unknown_root_is_noop (st : HandlerState) :
    handle_message st Event.other = some (st, Outcome.Ignored) := rfl

/-- C2: with `last_deleted_contact` carrying a resolved qsoid, Replace uses
that key with no resolver lookup: the store is first `undo_delete`d at the
key and then updated with the payload, and `Applied` is emitted; the
cross-matched fallback lookups play no part in the result. -/
theorem replace_with_known_qsoid (st : HandlerState) (ldc p : Payload) (q : Nat)
    (h : st.last_deleted_contact = some (ldc, some q)) :
    handle_message st (Event.contactreplace p) =
      some ({ st with qso_db := (update_qso (undo_delete st.qso_db q) q p).1 },
            Outcome.Applied q) := by
  simp [handle_message, h]

/-- Witness for C2 on the fixture store with key 0 soft-deleted. -/
theorem replace_with_known_qsoid_witness :
    handle_message ⟨some (pA, some 0), (delete_qso s2w (some 0)).1⟩
        (Event.contactreplace pZ) =
      some (⟨some (pA, some 0),
             (update_qso (undo_delete (delete_qso s2w (some 0)).1 0) 0 pZ).1⟩,
            Outcome.Applied 0) :=
  replace_with_known_qsoid ⟨some (pA, some 0), (delete_qso s2w (some 0)).1⟩ pA pZ 0 rfl

/-- C3: when no step of the fallback chain resolves a key - the carried
qsoid is `None`, the Replace event's own fields match nothing, and both
cross-matched candidates fail - the outcome is `GaveUp` and the whole state
(store included) is exactly what it was before the event. -/
theorem replace_gives_up_leaves_store (st : HandlerState) (ldc p : Payload)
    (h1 : st.last_deleted_contact = some (ldc, none))
    (h2 : get_qso_id st.qso_db p.timestamp p.call = none)
    (h3 : get_qso_id st.qso_db p.timestamp ldc.call = none)
    (h4 : get_qso_id st.qso_db ldc.timestamp p.call = none) :
    handle_message st (Event.contactreplace p) = some (st, Outcome.GaveUp) := by
  simp [handle_message, h1, h2, h3, h4]

/-- Witness for C3: an empty store resolves nothing. -/
theorem replace_gives_up_leaves_store_witness :
    handle_message ⟨some (pA, none), emptyStore⟩ (Event.contactreplace pZ) =
      some (⟨some (pA, none), emptyStore⟩, Outcome.GaveUp) :=
  replace_gives_up_leaves_store ⟨some (pA, none), emptyStore⟩ pA pZ rfl rfl rfl rfl

/-- C1: with the carried qsoid `None` and the Replace event's own lookup
failing, the handler attempts exactly the two cross-matched lookups, in the
fixed order (replace timestamp, deleted call) then (deleted timestamp,
replace call), resolves to the first candidate that is not `None`, and in
particular picks the timestamp-held-constant candidate when both resolve. -/
theorem replace_crossmatch_order (st : HandlerState) (ldc p : Payload)
    (h1 : st.last_deleted_contact = some (ldc, none))
    (h2 : get_qso_id st.qso_db p.timestamp p.call = none) :
    (handle_message st (Event.contactreplace p) =
      match (get_qso_id st.qso_db p.timestamp ldc.call).or
            (get_qso_id st.qso_db ldc.timestamp p.call) with
      | some q =>
        some ({ st with qso_db := (update_qso st.qso_db q p).1 }, Outcome.Applied q)
      | none => some (st, Outcome.GaveUp)) ∧
    (∀ q1 q2, get_qso_id st.qso_db p.timestamp ldc.call = some q1 →
      get_qso_id st.qso_db ldc.timestamp p.call = some q2 →
      handle_message st (Event.contactreplace p) =
        some ({ st with qso_db := (update_qso st.qso_db q1 p).1 },
              Outcome.Applied q1)) := by
  constructor
  · cases h3 : get_qso_id st.qso_db p.timestamp ldc.call <;>
      cases h4 : get_qso_id st.qso_db ldc.timestamp p.call <;>
      simp [handle_message, h1, h2, h3, h4, Option.or]
  · intro q1 q2 h3 h4
    simp [handle_message, h1, h2, h3, h4]

/-- Fixture payload: record (T0, ZZ9ZZ), the call-sign-held-constant
candidate for the cross-match witness. -/
def pD : Payload := ⟨some "T0", some "ZZ9ZZ", none⟩

/-- Fixture delete fields for the cross-match witness: (T0, AB1CD). -/
def ldcC1 : Payload := ⟨some "T0", some "AB1CD", none⟩

/-- Fixture store for the cross-match witness: both cross-matched candidate
lookups resolve (key 0 by timestamp, key 1 by call sign). -/
def sC1 : Store := insert_qso (insert_qso emptyStore pA) pD

/-- Witness for C1 where both candidates resolve: the Replace (T1, ZZ9ZZ)
matches key 0 via (replace timestamp, deleted call) and key 1 via (deleted
timestamp, replace call); the handler picks key 0. -/
theorem replace_crossmatch_order_witness :
    handle_message ⟨some (ldcC1, none), sC1⟩ (Event.contactreplace pZ) =
      some (⟨some (ldcC1, none), (update_qso sC1 0 pZ).1⟩, Outcome.Applied 0) :=
  (replace_crossmatch_order ⟨some (ldcC1, none), sC1⟩ ldcC1 pZ rfl rfl).2 0 1
    (by decide) (by decide)

/-- C8 (amended) counterexample input: with `last_deleted_contact` still
unset, a `contactreplace` subscripts `None` on line 93 and raises
`TypeError`; the embedding returns `none` for that uncaught exception. -/
theorem replace_without_delete_raises :
    (initialState s2w).last_deleted_contact = none ∧
    handle_message (initialState s2w) (Event.contactreplace pZ) = none :=
  ⟨rfl, rfl⟩

/-- C8 (amended): every `contactinfo`, `contactdelete` or unrecognised event
completes without an exception, and so does every `contactreplace` processed
while `last_deleted_contact` is set; for a Replace the only failure outcome
is `GaveUp`, which leaves the whole state untouched. -/
theorem handle_message_total_when_delete_precedes (st : HandlerState) (e : Event)
    (h : ∀ p, e = Event.contactreplace p → st.last_deleted_contact ≠ none) :
    ∃ st2 o, handle_message st e = some (st2, o) ∧
      (∀ p, e = Event.contactreplace p →
        (∃ k, o = Outcome.Applied k) ∨ (o = Outcome.GaveUp ∧ st2 = st)) := by
  cases e with
  | contactinfo p => exact ⟨_, _, rfl, fun p hp => nomatch hp⟩
  | contactdelete p => exact ⟨_, _, rfl, fun p hp => nomatch hp⟩
  | other => exact ⟨_, _, rfl, fun p hp => nomatch hp⟩
  | contactreplace p =>
    cases hld : st.last_deleted_contact with
    | none => exact absurd hld (h p rfl)
    | some pr =>
      obtain ⟨ldc, ldKey⟩ := pr
      cases ldKey with
      | some q =>
        exact ⟨{ st with qso_db := (update_qso (undo_delete st.qso_db q) q p).1 },
               Outcome.Applied q, by simp [handle_message, hld],
               fun _ _ => Or.inl ⟨q, rfl⟩⟩
      | none =>
        cases hq : get_qso_id st.qso_db p.timestamp p.call with
        | some q =>
          exact ⟨{ st with qso_db := (update_qso st.qso_db q p).1 },
                 Outcome.Applied q, by simp [handle_message, hld, hq],
                 fun _ _ => Or.inl ⟨q, rfl⟩⟩
        | none =>
          cases hc1 : get_qso_id st.qso_db p.timestamp ldc.call with
          | some q =>
            exact ⟨{ st with qso_db := (update_qso st.qso_db q p).1 },
                   Outcome.Applied q, by simp [handle_message, hld, hq, hc1],
                   fun _ _ => Or.inl ⟨q, rfl⟩⟩
          | none =>
            cases hc2 : get_qso_id st.qso_db ldc.timestamp p.call with
            | some q =>
              exact ⟨{ st with qso_db := (update_qso st.qso_db q p).1 },
                     Outcome.Applied q, by simp [handle_message, hld, hq, hc1, hc2],
                     fun _ _ => Or.inl ⟨q, rfl⟩⟩
            | none =>
              exact ⟨st, Outcome.GaveUp, by simp [handle_message, hld, hq, hc1, hc2],
                     fun _ _ => Or.inr ⟨rfl, rfl⟩⟩

/-- Witness for the amended C8: a Replace processed in a state whose
`last_deleted_contact` is set completes, with `Applied` or a state-preserving
`GaveUp`. -/
theorem handle_message_total_when_delete_precedes_witness :
    ∃ st2 o,
      handle_message ⟨some (pA, some 0), (delete_qso s2w (some 0)).1⟩
          (Event.contactreplace pZ) = some (st2, o) ∧
      (∀ p, Event.contactreplace pZ = Event.contactreplace p →
        (∃ k, o = Outcome.Applied k) ∨
          (o = Outcome.GaveUp ∧
            st2 = ⟨some (pA, some 0), (delete_qso s2w (some 0)).1⟩)) :=
  handle_message_total_when_delete_precedes
    ⟨some (pA, some 0), (delete_qso s2w (some 0)).1⟩
    (Event.contactreplace pZ) (fun _ _ => by decide)

/-- A completed Replace never writes `last_deleted_contact`. -/
theorem replace_preserves_last_deleted (st : HandlerState) (p : Payload)
    (st2 : HandlerState) (o : Outcome)
    (h : handle_message st (Event.contactreplace p) = some (st2, o)) :
    st2.last_deleted_contact = st.last_deleted_contact := by
  cases hld : st.last_deleted_contact with
  | none => simp [handle_message, hld] at h
  | some pr =>
    obtain ⟨ldc, ldKey⟩ := pr
    cases ldKey with
    | some q =>
      simp [handle_message, hld] at h
      obtain ⟨h1, h2⟩ := h
      simp [← h1, hld]
    | none =>
      cases hq : get_qso_id st.qso_db p.timestamp p.call with
      | some q =>
        simp [handle_message, hld, hq] at h
        obtain ⟨h1, h2⟩ := h
        simp [← h1, hld]
      | none =>
        cases hc1 : get_qso_id st.qso_db p.timestamp ldc.call with
        | some q =>
          simp [handle_message, hld, hq, hc1] at h
          obtain ⟨h1, h2⟩ := h
          simp [← h1, hld]
        | none =>
          cases hc2 : get_qso_id st.qso_db ldc.timestamp p.call with
          | some q =>
            simp [handle_message, hld, hq, hc1, hc2] at h
            obtain ⟨h1, h2⟩ := h
            simp [← h1, hld]
          | none =>
            simp [handle_message, hld, hq, hc1, hc2] at h
            obtain ⟨h1, h2⟩ := h
            simp [← h1, hld]

/-- C7: `last_deleted_contact` is written only by Delete transitions: after a
`contactdelete` it holds that event's fields with the key the resolver found
for them (possibly `None`), and every other completed event leaves it exactly
as it was. -/
theorem last_deleted_only_written_by_delete (st : HandlerState) (e : Event)
    (st2 : HandlerState) (o : Outcome)
    (h : handle_message st e = some (st2, o)) :
    (∀ p, e = Event.contactdelete p →
      st2.last_deleted_contact = some (p, get_qso_id st.qso_db p.timestamp p.call)) ∧
    ((∀ p, e ≠ Event.contactdelete p) →
      st2.last_deleted_contact = st.last_deleted_contact) := by
  cases e with
  | contactinfo p =>
    refine ⟨fun p hp => (nomatch hp), fun _ => ?_⟩
    simp [handle_message] at h
    obtain ⟨h1, h2⟩ := h
    simp [← h1]
  | contactdelete p =>
    refine ⟨fun p2 hp => ?_, fun hne => absurd rfl (hne p)⟩
    obtain rfl : p2 = p := by cases hp; rfl
    simp [handle_message] at h
    obtain ⟨h1, h2⟩ := h
    simp [← h1]
  | contactreplace p =>
    exact ⟨fun p2 hp => (nomatch hp),
           fun _ => replace_preserves_last_deleted st p st2 o h⟩
  | other =>
    refine ⟨fun p hp => (nomatch hp), fun _ => ?_⟩
    simp [handle_message] at h
    obtain ⟨h1, h2⟩ := h
    simp [← h1]

/-- Witness for C7 at a concrete Delete: the state after deleting (T1,
AB1CD) from the fixture store records those fields with key 0. -/
theorem last_deleted_only_written_by_delete_witness :
    (∀ p, Event.contactdelete pA = Event.contactdelete p →
      (⟨some (pA, some 0), (delete_qso s2w (some 0)).1⟩ : HandlerState).last_deleted_contact
        = some (p, get_qso_id s2w p.timestamp p.call)) ∧
    ((∀ p, Event.contactdelete pA ≠ Event.contactdelete p) →
      (⟨some (pA, some 0), (delete_qso s2w (some 0)).1⟩ : HandlerState).last_deleted_contact
        = (initialState s2w).last_deleted_contact) :=
  last_deleted_only_written_by_delete (initialState s2w) (Event.contactdelete pA)
    ⟨some (pA, some 0), (delete_qso s2w (some 0)).1⟩ (Outcome.Applied 0) (by decide)

end N1mm
